import Mathlib

/-!
Shallow embedding of the hr-breaker optimization loop
(`src/hr_breaker/orchestration.py`), its retry wrapper
(`src/hr_breaker/utils/retry.py`) and the data model they operate on.

External collaborators (the rewriting agent `optimize_resume`, the job-posting
LLM call `parse_job_posting`, the HTML renderer, PDF text extraction, and each
registered evaluator) are modelled as oracle functions supplied through an
environment record.  Logging calls, timing instrumentation and the purely
observational `on_iteration` callback (which receives the iteration data but
cannot influence the loop state) are not modelled.  Python exceptions are
modelled with `Except`; Python float scores are modelled with rationals (the
program only manipulates exactly representable scores such as 0.0, 0.5, 1.0).
-/

/-- Structured resume data (legacy representation).  The Pydantic model class
lives in `hr_breaker/models.py`, which is not part of the sources at hand; it
is opaque to the loop except for its JSON serialization `model_dump_json`,
modelled here as a stored string. -/
structure ResumeData where
  model_dump_json : String
deriving DecidableEq, Repr

/-- Modelled from the spec: `EvaluatorResult` / `FilterResult`
(`hr_breaker/models.py` is not among the sources) — evaluator name, passed
flag, numeric score, numeric threshold, issue strings, suggestion strings. -/
structure FilterResult where
  filter_name : String
  passed : Bool
  score : ℚ
  threshold : ℚ
  issues : List String
  suggestions : List String
deriving DecidableEq, Repr

/-- Modelled from the spec: `ValidationVerdict` / `ValidationResult`
(`hr_breaker/models.py` is not among the sources) — an ordered list of
evaluator results. -/
structure ValidationResult where
  results : List FilterResult
deriving DecidableEq, Repr

/-- Modelled from the spec: the derived aggregate verdict
`overall_passed == all(r.passed for r in results)` (the `passed` property of
`ValidationResult` lives in `hr_breaker/models.py`, not among the sources). -/
def ValidationResult.passed (v : ValidationResult) : Bool :=
  v.results.all (fun r => r.passed)

/-- Per-iteration input bundle passed to the Rewrite Step; constructed in
`optimize_for_job` (orchestration.py lines 157-162). -/
structure IterationContext where
  iteration : Nat
  original_resume : String
  last_attempt : Option String
  validation : Option ValidationResult
deriving DecidableEq, Repr

/-- Modelled from the spec: `SourceDocument` / `ResumeSource` — raw original
content, optional applicant name, content checksum
(`hr_breaker/models.py` is not among the sources). -/
structure ResumeSource where
  content : String
  name : Option String
  checksum : String
deriving DecidableEq, Repr

/-- Modelled from the spec: `JobPosting` — title, company, description,
requirements, keywords, raw source text (`hr_breaker/models.py` is not among
the sources).  Read-only for the whole loop. -/
structure JobPosting where
  title : String
  company : String
  description : String
  requirements : List String
  keywords : List String
  raw_text : String
deriving DecidableEq, Repr

/-- Modelled from the spec: `Candidate` / `OptimizedResume` — markup form
and/or structured form, change descriptions, and (once rendered) extracted
plain text plus rendered binary (`hr_breaker/models.py` is not among the
sources; the fields are the ones orchestration.py reads and updates). -/
structure OptimizedResume where
  html : Option String
  data : Option ResumeData
  changes : List String
  pdf_text : Option String
  pdf_bytes : Option String
deriving DecidableEq, Repr

/-- Render failure (`hr_breaker/services/renderer.py`, `RenderError`). -/
structure RenderError where
  msg : String
deriving DecidableEq, Repr

/-- Successful render output: document bytes (modelled as a string) and page
count. -/
structure RenderResult where
  pdf_bytes : String
  page_count : Nat
deriving DecidableEq, Repr

/-- Python exceptions, as far as the program inspects them:
`ModelHTTPError` (pydantic-ai) always carries an integer `status_code`;
`ValueError` carries a message; any other exception has a type name, a
message, and possibly an integer `status_code` attribute. -/
inductive PyExc where
  | modelHTTPError (status_code : Int) (model_name : String)
  | valueError (msg : String)
  | other (name : String) (msg : String) (status_code : Option Int)
deriving DecidableEq, Repr

/-- Python `type(exc).__name__`. -/
def PyExc.typeName : PyExc → String
  | .modelHTTPError _ _ => "ModelHTTPError"
  | .valueError _ => "ValueError"
  | .other n _ _ => n

/-- Python `str(exc)` (the exact rendering of library exceptions is opaque;
only its presence matters to the program). -/
def PyExc.message : PyExc → String
  | .modelHTTPError sc mn => "status_code: " ++ toString sc ++ ", model_name: " ++ mn
  | .valueError m => m
  | .other _ m _ => m

/-- Python `getattr(exc, "status_code", None)` restricted to `int` values,
as used by `is_retryable` (retry.py lines 26-28). -/
def PyExc.statusAttr : PyExc → Option Int
  | .modelHTTPError sc _ => some sc
  | .valueError _ => none
  | .other _ _ sc => sc

/-- retry.py line 19. -/
def RETRYABLE_STATUS_CODES : List Int := [429, 500, 502, 503, 504]

/-- retry.py lines 22-29: an exception is retryable when it is a
`ModelHTTPError` whose status code is retryable, or when it carries an
integer `status_code` attribute whose value is retryable. -/
def is_retryable (exc : PyExc) : Bool :=
  match exc with
  | .modelHTTPError sc _ => sc ∈ RETRYABLE_STATUS_CODES
  | _ =>
    match exc.statusAttr with
    | some status => status ∈ RETRYABLE_STATUS_CODES
    | none => false

/-- One tenacity attempt round for `run_with_retry` (retry.py lines 52-62):
call the wrapped function (its k-th call outcome given by the oracle `func`);
on success return the value, on a non-retryable error re-raise at once, on a
retryable error re-raise when the attempt budget is exhausted
(`stop_after_attempt`) and otherwise back off and retry.  `fuel` counts the
attempts still allowed, the current one included, so a further attempt is
made only when `2 ≤ fuel`.  The pair's second component counts how many
times the wrapped function was called. -/
def retryGo {α : Type} (func : Nat → Except PyExc α) (k fuel : Nat) :
    Except PyExc α × Nat :=
  match func k with
  | .ok v => (.ok v, k + 1)
  | .error e =>
    if h : is_retryable e = true ∧ 2 ≤ fuel then retryGo func (k + 1) (fuel - 1)
    else (.error e, k + 1)
termination_by fuel
decreasing_by omega

/-- retry.py lines 32-62: `run_with_retry`.  The wrapped call is modelled by
`func k`, the outcome of its k-th invocation; `settings_retry_max_attempts`
models `get_settings().retry_max_attempts`.  Python evaluates
`_max_attempts or settings.retry_max_attempts`, so a passed value of `0`
falls back to the settings value.  `_max_wait` only shapes backoff timing,
which is not modelled.  Returns the final outcome and the number of calls
made to the wrapped function. -/
def run_with_retry {α : Type} (func : Nat → Except PyExc α)
    (_max_attempts : Option Nat) (_max_wait : Option ℚ)
    (settings_retry_max_attempts : Nat) : Except PyExc α × Nat :=
  let max_attempts :=
    match _max_attempts with
    | some n => if n = 0 then settings_retry_max_attempts else n
    | none => settings_retry_max_attempts
  retryGo func 0 max_attempts

/-- A registered filter class (`hr_breaker/filters`, not among the sources;
the interface is the one orchestration.py uses): a stable `name`, an integer
`priority`, an optional declared `threshold` (orchestration.py reads it with
`getattr(f, "threshold", 0.5)`), and the asynchronous `evaluate` call of an
instance constructed with the `no_shame` flag.  `evaluate` is modelled as an
oracle from the instantiation flag and the three inputs to either a raised
exception or a `FilterResult`. -/
structure FilterCls where
  name : String
  priority : Int
  threshold : Option ℚ
  evaluate : Bool → OptimizedResume → JobPosting → ResumeSource → Except PyExc FilterResult

/-- Python `sorted(filters, key=lambda f: f.priority)` (orchestration.py
line 88): a stable sort by ascending priority. -/
def sortFilters (fs : List FilterCls) : List FilterCls :=
  List.insertionSort (fun a b => a.priority ≤ b.priority) fs

/-- orchestration.py lines 72-81: the synthetic failing result assembled in
parallel mode when a filter invocation raised exception `e`. -/
def syntheticFailure (fc : FilterCls) (e : PyExc) : FilterResult :=
  { filter_name := fc.name
    passed := false
    score := 0
    threshold := fc.threshold.getD 0.5
    issues := ["Filter error: " ++ e.typeName ++ ": " ++ e.message]
    suggestions := ["Check filter implementation"] }

/-- The result contributed by one filter in parallel mode (orchestration.py
lines 69-83): the filter's own result, or the synthetic failure if its
invocation raised. -/
def parResult (fc : FilterCls) (ns : Bool) (o : OptimizedResume) (j : JobPosting)
    (s : ResumeSource) : FilterResult :=
  match fc.evaluate ns o j s with
  | .ok r => r
  | .error e => syntheticFailure fc e

/-- orchestration.py lines 59-84, parallel mode: all filters are invoked
(`asyncio.gather` with `return_exceptions=True` returns one outcome per task,
in task-submission order, i.e. registration order, regardless of completion
order), exceptions are converted to synthetic failures, and the verdict is
assembled in that order. -/
def runFiltersPar (fs : List FilterCls) (o : OptimizedResume) (j : JobPosting)
    (s : ResumeSource) (ns : Bool) : ValidationResult :=
  ⟨fs.map (fun fc => parResult fc ns o j s)⟩

/-- Trace entry of the sequential pass: each filter class reached by the
`for` loop either gets skipped by the final-check guard or is invoked, with
the results accumulated before it and its outcome recorded. -/
inductive SeqStep where
  | skipped (name : String) (priority : Int)
  | invoked (name : String) (priority : Int) (before : List FilterResult)
      (outcome : Except PyExc FilterResult)

/-- Name of the filter class a trace entry is about. -/
def SeqStep.stepName : SeqStep → String
  | .skipped n _ => n
  | .invoked n _ _ _ => n

/-- Priority of the filter class a trace entry is about. -/
def SeqStep.stepPriority : SeqStep → Int
  | .skipped _ p => p
  | .invoked _ p _ _ => p

/-- orchestration.py lines 90-107, the body of the sequential `for` loop over
the priority-sorted filter classes, with `acc` the `results` list so far:
a filter of priority ≥ 100 is skipped (`continue`) when `results` is
non-empty and not all of them passed; otherwise the filter is invoked (a
raised exception propagates), its result is appended, and a failing result
of a filter of priority < 100 stops the loop (`break`).  Returns the final
`results` (or the propagated exception) together with the trace. -/
def seqGo (o : OptimizedResume) (j : JobPosting) (s : ResumeSource) (ns : Bool) :
    List FilterCls → List FilterResult →
    Except PyExc (List FilterResult) × List SeqStep
  | [], acc => (.ok acc, [])
  | fc :: rest, acc =>
    if 100 ≤ fc.priority ∧ acc ≠ [] ∧ acc.all (fun r => r.passed) = false then
      let next := seqGo o j s ns rest acc
      (next.1, .skipped fc.name fc.priority :: next.2)
    else
      match fc.evaluate ns o j s with
      | .error e => (.error e, [.invoked fc.name fc.priority acc (.error e)])
      | .ok r =>
        if r.passed = false ∧ fc.priority < 100 then
          (.ok (acc ++ [r]), [.invoked fc.name fc.priority acc (.ok r)])
        else
          let next := seqGo o j s ns rest (acc ++ [r])
          (next.1, .invoked fc.name fc.priority acc (.ok r) :: next.2)

/-- orchestration.py lines 86-109: sequential mode over the priority-sorted
registry, starting from an empty `results` list. -/
def runFiltersSeq (fs : List FilterCls) (o : OptimizedResume) (j : JobPosting)
    (s : ResumeSource) (ns : Bool) :
    Except PyExc (List FilterResult) × List SeqStep :=
  seqGo o j s ns (sortFilters fs) []

/-- Names of the filters actually invoked along a sequential trace. -/
def invokedNames (steps : List SeqStep) : List String :=
  steps.filterMap (fun st =>
    match st with
    | .skipped _ _ => none
    | .invoked n _ _ _ => some n)

/-- orchestration.py lines 49-109: `run_filters` over the registered filter
classes `fs` (in registration order).  Returns the verdict (or the exception
a sequentially-invoked filter raised) together with the names of the filters
that were actually invoked. -/
def run_filters (fs : List FilterCls) (o : OptimizedResume) (j : JobPosting)
    (s : ResumeSource) (parallel : Bool) (ns : Bool) :
    Except PyExc ValidationResult × List String :=
  if parallel then
    (.ok (runFiltersPar fs o j s ns), fs.map (fun fc => fc.name))
  else
    let next := runFiltersSeq fs o j s ns
    (next.1.map ValidationResult.mk, invokedNames next.2)

/-- Environment of external collaborators and configuration the loop calls
out to.  Each oracle is a pure function: the real calls are awaited
single-threadedly, so one run of the loop observes one fixed behavior. -/
structure LoopEnv where
  settings_max_iterations : Nat
  parse_job_posting : String → JobPosting
  optimize_resume : ResumeSource → JobPosting → IterationContext → Bool → OptimizedResume
  render : String → Except RenderError RenderResult
  render_data : ResumeData → Except RenderError RenderResult
  extract_text_from_pdf : String → String
  filters : List FilterCls

/-- orchestration.py lines 204-232, `_render_and_extract`: render the html
(when present, even empty) or else the structured data; with no content at
all a `RenderError` is raised inside the guarded block.  Any `RenderError`
is caught and the candidate is returned unchanged; on success the candidate
is copied with the extracted text and the rendered bytes attached. -/
def _render_and_extract (env : LoopEnv) (optimized : OptimizedResume) : OptimizedResume :=
  let rendered : Except RenderError RenderResult :=
    match optimized.html with
    | some h => env.render h
    | none =>
      match optimized.data with
      | some d => env.render_data d
      | none => .error ⟨"No content to render (neither html nor data)"⟩
  match rendered with
  | .error _ => optimized
  | .ok result =>
    { optimized with
        pdf_text := some (env.extract_text_from_pdf result.pdf_bytes)
        pdf_bytes := some result.pdf_bytes }

/-- orchestration.py lines 167-171: the `last_attempt` stored for the next
iteration — `optimized.html if optimized.html else (optimized.data.model_dump_json()
if optimized.data else None)`.  Python truthiness: an empty html string is
falsy, so it falls through to the structured data. -/
def pyRawContent (optimized : OptimizedResume) : Option String :=
  match optimized.html with
  | some h => if h ≠ "" then some h else optimized.data.map ResumeData.model_dump_json
  | none => optimized.data.map ResumeData.model_dump_json

/-- Raw candidate content as the spec words it: "its markup, or its
structured data serialized when markup is absent".  Stated from the spec for
comparison with `pyRawContent`, the rule the code implements. -/
def specRawContent (optimized : OptimizedResume) : Option String :=
  match optimized.html with
  | some h => some h
  | none => optimized.data.map ResumeData.model_dump_json

/-- orchestration.py lines 178-189: the synthetic verdict for a failed
render. -/
def pdfRenderFailResult : FilterResult :=
  { filter_name := "PDFRender"
    passed := false
    score := 0
    threshold := 1
    issues := ["Failed to render resume to PDF"]
    suggestions := ["Check resume data structure"] }

/-- What one iteration of the loop did: the context handed to the Rewrite
Step (exactly one `optimize_resume` call per record), the candidate it
produced, the candidate after the (exactly one) `_render_and_extract` call,
the evaluators actually invoked, and the verdict (`none` when a sequential
filter raised and the iteration aborted the whole run). -/
structure IterRecord where
  ctx : IterationContext
  optimized : OptimizedResume
  rendered : OptimizedResume
  invoked : List String
  verdict : Option ValidationResult

/-- orchestration.py lines 155-199, one iteration body: build the
`IterationContext`, invoke the Rewrite Step, store the raw content for the
next iteration, render and extract, then either synthesize the render-failure
verdict (no evaluator runs) or run the filters.  Returns the iteration
record plus either the propagated exception or the new loop state
(rendered candidate, verdict, stored raw content). -/
def iterStep (env : LoopEnv) (source : ResumeSource) (job : JobPosting)
    (parallel ns : Bool) (i : Nat) (last_attempt : Option String)
    (validation : Option ValidationResult) :
    IterRecord × Except PyExc (OptimizedResume × ValidationResult × Option String) :=
  let ctx : IterationContext :=
    { iteration := i
      original_resume := source.content
      last_attempt := last_attempt
      validation := validation }
  let opt := env.optimize_resume source job ctx ns
  let la := pyRawContent opt
  let opt2 := _render_and_extract env opt
  match opt2.pdf_text with
  | none =>
    let v : ValidationResult := ⟨[pdfRenderFailResult]⟩
    (⟨ctx, opt, opt2, [], some v⟩, .ok (opt2, v, la))
  | some _ =>
    match run_filters env.filters opt2 job source parallel ns with
    | (.ok v, inv) => (⟨ctx, opt, opt2, inv, some v⟩, .ok (opt2, v, la))
    | (.error e, inv) => (⟨ctx, opt, opt2, inv, none⟩, .error e)

/-- The triple `optimize_for_job` returns: the final candidate and verdict
(each `None` when the loop body never ran) and the job posting. -/
def LoopRet : Type :=
  Option OptimizedResume × Option ValidationResult × JobPosting

/-- orchestration.py lines 155-201, the `for i in range(max_iterations)` loop
as a recursion on the remaining iteration count `fuel` (iteration index
`i = max_iterations - fuel`), threading the `optimized`, `validation` and
`last_attempt` state.  A passing verdict breaks out of the loop; an exception
propagates; exhausted fuel returns the carried state.  The second component
records what every executed iteration did. -/
def loopGo (env : LoopEnv) (source : ResumeSource) (job : JobPosting)
    (parallel ns : Bool) :
    Nat → Nat → Option OptimizedResume → Option ValidationResult → Option String →
    Except PyExc LoopRet × List IterRecord
  | 0, _i, optimized, validation, _la =>
    (.ok (optimized, validation, job), [])
  | fuel + 1, i, _optimized, validation, la =>
    match iterStep env source job parallel ns i la validation with
    | (rec, .error e) => (.error e, [rec])
    | (rec, .ok (opt2, v, la2)) =>
      if v.passed then (.ok (some opt2, some v, job), [rec])
      else
        let next := loopGo env source job parallel ns fuel (i + 1) (some opt2) (some v) la2
        (next.1, rec :: next.2)

/-- Everything one call of `optimize_for_job` did: its return value or raised
exception, how many times `parse_job_posting` was called, and the per-
iteration records. -/
structure LoopOutput where
  result : Except PyExc LoopRet
  parse_calls : Nat
  records : List IterRecord

/-- orchestration.py lines 112-201, `optimize_for_job`: resolve
`max_iterations` from settings when absent, then — before any parsing,
rewrite or render — raise `ValueError` when neither `job` nor `job_text` was
supplied; parse the job text only when no pre-parsed job was given; then run
the iteration loop from iteration 0 with empty state. -/
def optimize_for_job (env : LoopEnv) (source : ResumeSource)
    (job_text : Option String) (max_iterations : Option Nat)
    (job : Option JobPosting) (parallel ns : Bool) : LoopOutput :=
  let maxIter :=
    match max_iterations with
    | none => env.settings_max_iterations
    | some m => m
  match job with
  | some j =>
    let next := loopGo env source j parallel ns maxIter 0 none none none
    ⟨next.1, 0, next.2⟩
  | none =>
    match job_text with
    | none => ⟨.error (.valueError "Either job_text or job must be provided"), 0, []⟩
    | some t =>
      let j := env.parse_job_posting t
      let next := loopGo env source j parallel ns maxIter 0 none none none
      ⟨next.1, 1, next.2⟩

/-- The job posting one call of `optimize_for_job` runs the loop against:
the pre-parsed one when supplied, otherwise the parse of `job_text`. -/
def resolvedJob (env : LoopEnv) (job : Option JobPosting)
    (job_text : Option String) : Option JobPosting :=
  match job with
  | some j => some j
  | none => job_text.map env.parse_job_posting

/-- Concrete fixture: a source resume. -/
def source0 : ResumeSource := ⟨"SRC", none, "CHK"⟩

/-- Concrete fixture: a job posting. -/
def job0 : JobPosting := ⟨"T", "Co", "D", [], [], "RAW"⟩

/-- Concrete fixture: an already-rendered candidate handed to the filters. -/
def opt0 : OptimizedResume := ⟨some "H", none, [], some "TEXT", some "PDF"⟩

/-- Concrete fixture: a passing evaluator result. -/
def passRes : FilterResult := ⟨"P", true, 1, (1 : ℚ)/2, [], []⟩

/-- Concrete fixture: a failing evaluator result. -/
def failRes : FilterResult := ⟨"F", false, 0, 1, ["keyword coverage too low"], []⟩

/-- Concrete fixture: a passing final-check result. -/
def finRes : FilterResult := ⟨"FIN", true, 1, 1, [], []⟩

/-- Concrete fixture: an evaluator of priority 10 that always passes. -/
def passCls : FilterCls := ⟨"P", 10, some ((1 : ℚ)/2), fun _ _ _ _ => .ok passRes⟩

/-- Concrete fixture: an evaluator of priority 10 that always fails. -/
def failCls : FilterCls := ⟨"F", 10, some 1, fun _ _ _ _ => .ok failRes⟩

/-- Concrete fixture: a final check (priority 100) that always passes. -/
def finalCls : FilterCls := ⟨"FIN", 100, some 1, fun _ _ _ _ => .ok finRes⟩

/-- Concrete fixture: an evaluator of priority 50 whose invocation raises. -/
def raiseCls : FilterCls := ⟨"R", 50, none, fun _ _ _ _ => .error (.other "RuntimeError" "boom" none)⟩

/-- Concrete fixture: an environment whose rewriter emits fixed markup and
whose single evaluator passes, so the loop stops after the first iteration. -/
def envPass : LoopEnv :=
  { settings_max_iterations := 3
    parse_job_posting := fun _ => job0
    optimize_resume := fun _ _ _ _ => ⟨some "H", none, ["change"], none, none⟩
    render := fun _ => .ok ⟨"PDFBYTES", 1⟩
    render_data := fun _ => .ok ⟨"PDFBYTES", 1⟩
    extract_text_from_pdf := fun _ => "TEXT"
    filters := [passCls] }

/-- Concrete fixture: an environment whose rewriter emits an empty markup
string and no structured data, and whose single evaluator fails, so the loop
keeps iterating. -/
def envEmptyHtml : LoopEnv :=
  { settings_max_iterations := 3
    parse_job_posting := fun _ => job0
    optimize_resume := fun _ _ _ _ => ⟨some "", none, [], none, none⟩
    render := fun _ => .ok ⟨"PDFBYTES", 1⟩
    render_data := fun _ => .ok ⟨"PDFBYTES", 1⟩
    extract_text_from_pdf := fun _ => "TEXT"
    filters := [failCls] }

/-- Concrete fixture: an environment whose rewriter emits a candidate with
neither markup nor structured data, so every render fails. -/
def envNoContent : LoopEnv :=
  { settings_max_iterations := 3
    parse_job_posting := fun _ => job0
    optimize_resume := fun _ _ _ _ => ⟨none, none, [], none, none⟩
    render := fun _ => .ok ⟨"PDFBYTES", 1⟩
    render_data := fun _ => .ok ⟨"PDFBYTES", 1⟩
    extract_text_from_pdf := fun _ => "TEXT"
    filters := [failCls] }

instance : IsTotal FilterCls (fun a b => a.priority ≤ b.priority) :=
  ⟨fun a b => Int.le_total a.priority b.priority⟩

instance : IsTrans FilterCls (fun a b => a.priority ≤ b.priority) :=
  ⟨fun _ _ _ h1 h2 => le_trans h1 h2⟩

/-- Unfolding lemma: a retryable failure with at least two attempts of budget
left retries with one unit of budget consumed. -/
theorem retryGo_retry_step {α : Type} (func : Nat → Except PyExc α) (k fuel : Nat)
    (e : PyExc) (hf : func k = .error e) (hr : is_retryable e = true)
    (hfuel : 2 ≤ fuel) :
    retryGo func k fuel = retryGo func (k + 1) (fuel - 1) := by
  rw [retryGo, hf]
  simp [hr, hfuel]

/-- Unfolding lemma: a failure that is non-retryable or out of budget is
returned after this single call. -/
theorem retryGo_stop {α : Type} (func : Nat → Except PyExc α) (k fuel : Nat)
    (e : PyExc) (hf : func k = .error e)
    (h : ¬ (is_retryable e = true ∧ 2 ≤ fuel)) :
    retryGo func k fuel = (.error e, k + 1) := by
  rw [retryGo, hf]
  simp [h]

/-- Unfolding lemma: a successful call returns at once. -/
theorem retryGo_ok {α : Type} (func : Nat → Except PyExc α) (k fuel : Nat)
    (v : α) (hf : func k = .ok v) :
    retryGo func k fuel = (.ok v, k + 1) := by
  rw [retryGo, hf]

/-- C7: a wrapped function that fails twice with a retryable error and then
succeeds is called exactly 3 times and its success value is returned (under
the default attempt ceiling, which is at least 3); a wrapped function that
always fails with a retryable error is, under `_max_attempts = 2`, called
exactly 2 times and the original error is re-raised. -/
theorem c7_run_with_retry_call_counts :
    (∀ (α : Type) (func : Nat → Except PyExc α) (e0 e1 : PyExc) (v : α)
        (mw : Option ℚ) (s : Nat),
      is_retryable e0 = true → is_retryable e1 = true →
      func 0 = .error e0 → func 1 = .error e1 → func 2 = .ok v → 3 ≤ s →
      run_with_retry func none mw s = (.ok v, 3))
    ∧ (∀ (α : Type) (func : Nat → Except PyExc α) (e : PyExc)
        (mw : Option ℚ) (s : Nat),
      (∀ k, func k = .error e) → is_retryable e = true →
      run_with_retry func (some 2) mw s = (.error e, 2)) := by
  constructor
  · intro α func e0 e1 v mw s hr0 hr1 h0 h1 h2 hs
    show retryGo func 0 s = (.ok v, 3)
    rw [retryGo_retry_step func 0 s e0 h0 hr0 (by omega)]
    rw [retryGo_retry_step func 1 (s - 1) e1 h1 hr1 (by omega)]
    rw [retryGo_ok func 2 (s - 1 - 1) v h2]
  · intro α func e mw s hf hr
    show retryGo func 0 (if 2 = 0 then s else 2) = (.error e, 2)
    rw [if_neg (by omega)]
    rw [retryGo_retry_step func 0 2 e (hf 0) hr (by omega)]
    rw [retryGo_stop func 1 (2 - 1) e (hf 1) (by omega)]

/-- Witness for C7 at a concrete wrapped function: two 429 failures then
success, and a constant 429 failure under a 2-attempt ceiling. -/
theorem c7_witness :
    run_with_retry
      (fun k => if k = 0 then .error (.modelHTTPError 429 "test")
                else if k = 1 then .error (.modelHTTPError 500 "test")
                else (.ok "done" : Except PyExc String)) none none 5 = (.ok "done", 3)
    ∧ run_with_retry (fun _ => (.error (.modelHTTPError 429 "test") : Except PyExc String))
        (some 2) none 5 = (.error (.modelHTTPError 429 "test"), 2) :=
  ⟨c7_run_with_retry_call_counts.1 String _ (.modelHTTPError 429 "test")
      (.modelHTTPError 500 "test") "done" none 5 (by decide) (by decide) rfl rfl rfl
      (by omega),
   c7_run_with_retry_call_counts.2 String _ (.modelHTTPError 429 "test") none 5
      (fun _ => rfl) (by decide)⟩

/-- C8: `is_retryable` holds exactly for a `ModelHTTPError` whose status code
is one of 429, 500, 502, 503, 504, or for an exception carrying an integer
`status_code` attribute in that set; and a non-retryable failure of the first
call is propagated by `run_with_retry` after exactly one call, whatever the
attempt ceiling. -/
theorem c8_is_retryable_iff_and_immediate :
    (∀ e : PyExc, is_retryable e = true ↔
        ((∃ sc mn, e = .modelHTTPError sc mn ∧ sc ∈ RETRYABLE_STATUS_CODES) ∨
         (∃ sc, e.statusAttr = some sc ∧ sc ∈ RETRYABLE_STATUS_CODES)))
    ∧ (∀ (α : Type) (func : Nat → Except PyExc α) (e : PyExc)
        (ma : Option Nat) (mw : Option ℚ) (s : Nat),
      is_retryable e = false → func 0 = .error e →
      run_with_retry func ma mw s = (.error e, 1)) := by
  constructor
  · intro e
    cases e with
    | modelHTTPError sc mn => simp [is_retryable, PyExc.statusAttr]
    | valueError m => simp [is_retryable, PyExc.statusAttr]
    | other n m sc => cases sc <;> simp [is_retryable, PyExc.statusAttr]
  · intro α func e ma mw s hnr hf
    show retryGo func 0 _ = (.error e, 1)
    rw [retryGo_stop func 0 _ e hf (by simp [hnr])]

/-- Witness for C8 at concrete exceptions: a 400 `ModelHTTPError` is not
retryable and propagates after one call; a 429 is retryable. -/
theorem c8_witness :
    is_retryable (.other "RateLimitError" "rate limited" (some 429)) = true
    ∧ run_with_retry (fun _ => (.error (.modelHTTPError 400 "test") : Except PyExc String))
        none none 5 = (.error (.modelHTTPError 400 "test"), 1) :=
  ⟨(c8_is_retryable_iff_and_immediate.1 _).mpr
      (Or.inr ⟨429, rfl, by decide⟩),
   c8_is_retryable_iff_and_immediate.2 String _ (.modelHTTPError 400 "test") none none 5
      (by decide) rfl⟩

/-- C3: in parallel mode the verdict has exactly one result per registered
evaluator, positionally matching registration order; a raising evaluator
contributes the synthetic failure, with `passed = false`, score 0, a
non-empty issues list and the evaluator's name; a non-raising evaluator
contributes its own result unchanged. -/
theorem c3_parallel_one_result_per_filter (fs : List FilterCls)
    (o : OptimizedResume) (j : JobPosting) (s : ResumeSource) (ns : Bool) :
    (runFiltersPar fs o j s ns).results.length = fs.length
    ∧ (∀ k fc, fs.get? k = some fc →
        (runFiltersPar fs o j s ns).results.get? k = some (parResult fc ns o j s))
    ∧ (∀ fc e, fc.evaluate ns o j s = .error e →
        (parResult fc ns o j s).passed = false
        ∧ (parResult fc ns o j s).score = 0
        ∧ (parResult fc ns o j s).issues ≠ []
        ∧ (parResult fc ns o j s).filter_name = fc.name)
    ∧ (∀ fc r, fc.evaluate ns o j s = .ok r → parResult fc ns o j s = r) := by
  refine ⟨?_, ?_, ?_, ?_⟩
  · simp [runFiltersPar]
  · intro k fc hk
    rw [List.get?_eq_getElem?] at hk ⊢
    simp [runFiltersPar, List.getElem?_map, hk]
  · intro fc e he
    simp [parResult, he, syntheticFailure]
  · intro fc r hr
    simp [parResult, hr]

/-- Witness for C3: a registry of a raising evaluator followed by a passing
one; position 0 holds the synthetic failure for the raiser, position 1 the
passing result. -/
theorem c3_witness :
    raiseCls.evaluate false opt0 job0 source0 = .error (.other "RuntimeError" "boom" none)
    ∧ (runFiltersPar [raiseCls, passCls] opt0 job0 source0 false).results.get? 0 =
        some (parResult raiseCls false opt0 job0 source0)
    ∧ (parResult raiseCls false opt0 job0 source0).passed = false
    ∧ (parResult raiseCls false opt0 job0 source0).score = 0
    ∧ (parResult raiseCls false opt0 job0 source0).issues ≠ []
    ∧ parResult passCls false opt0 job0 source0 = passRes := by
  have h := c3_parallel_one_result_per_filter [raiseCls, passCls] opt0 job0 source0 false
  have hprops := h.2.2.1 raiseCls (.other "RuntimeError" "boom" none) rfl
  exact ⟨rfl, h.2.1 0 raiseCls rfl, hprops.1, hprops.2.1, hprops.2.2.1,
    h.2.2.2 passCls passRes rfl⟩

/-- C5: for any verdict `run_filters` returns (either mode), the aggregate
`overall_passed` is true exactly when every result present in the verdict
passed; results never produced (skipped or truncated by early exit) simply
are not in the list and contribute nothing. -/
theorem c5_overall_passed_iff_all (fs : List FilterCls) (o : OptimizedResume)
    (j : JobPosting) (s : ResumeSource) (parallel ns : Bool)
    (v : ValidationResult) (inv : List String)
    (_h : run_filters fs o j s parallel ns = (.ok v, inv)) :
    v.passed = true ↔ ∀ r ∈ v.results, r.passed = true := by
  simp [ValidationResult.passed, List.all_eq_true]

/-- Witness for C5 on a sequential early-exit run: the registry holds a
failing priority-10 evaluator and a priority-100 final check, the verdict is
truncated to the single failing result, and the equivalence is instantiated
on it. -/
theorem c5_witness :
    run_filters [failCls, finalCls] opt0 job0 source0 false false =
      (.ok ⟨[failRes]⟩, ["F"])
    ∧ ((⟨[failRes]⟩ : ValidationResult).passed = true ↔
        ∀ r ∈ [failRes], r.passed = true) :=
  ⟨rfl, c5_overall_passed_iff_all [failCls, finalCls] opt0 job0 source0 false false
    ⟨[failRes]⟩ ["F"] rfl⟩

/-- The sequential trace visits (a prefix of) the priority-sorted filter
classes, in order: the trace names and priorities are an initial segment of
the sorted registry. -/
theorem seqGo_trace_follows_sorted (o : OptimizedResume) (j : JobPosting)
    (s : ResumeSource) (ns : Bool) :
    ∀ (l : List FilterCls) (acc : List FilterResult),
      ∃ rest, l.map (fun fc => (fc.name, fc.priority)) =
        (seqGo o j s ns l acc).2.map (fun st => (st.stepName, st.stepPriority)) ++ rest := by
  intro l
  induction l with
  | nil => intro acc; exact ⟨[], rfl⟩
  | cons fc rest ih =>
    intro acc
    by_cases hskip : 100 ≤ fc.priority ∧ acc ≠ [] ∧ acc.all (fun r => r.passed) = false
    · obtain ⟨r, hr⟩ := ih acc
      refine ⟨r, ?_⟩
      simp only [seqGo, if_pos hskip, List.map_cons, SeqStep.stepName,
        SeqStep.stepPriority, List.cons_append, hr]
    · cases he : fc.evaluate ns o j s with
      | error e =>
        refine ⟨rest.map (fun fc => (fc.name, fc.priority)), ?_⟩
        simp only [seqGo, if_neg hskip, he, List.map_cons, List.map_nil,
          SeqStep.stepName, SeqStep.stepPriority, List.cons_append, List.nil_append]
      | ok r =>
        by_cases hbrk : r.passed = false ∧ fc.priority < 100
        · refine ⟨rest.map (fun fc => (fc.name, fc.priority)), ?_⟩
          simp only [seqGo, if_neg hskip, he, if_pos hbrk, List.map_cons,
            List.map_nil, SeqStep.stepName, SeqStep.stepPriority,
            List.cons_append, List.nil_append]
        · obtain ⟨rr, hrr⟩ := ih (acc ++ [r])
          refine ⟨rr, ?_⟩
          simp only [seqGo, if_neg hskip, he, if_neg hbrk, List.map_cons,
            SeqStep.stepName, SeqStep.stepPriority, List.cons_append, hrr]


/-- A final check (priority at least 100) that was not skipped saw only
passing results. -/
theorem notSkip_all_passing {acc : List FilterResult} {p : Int}
    (hp : 100 ≤ p)
    (hskip : ¬ (100 ≤ p ∧ acc ≠ [] ∧ acc.all (fun r => r.passed) = false)) :
    acc.all (fun r => r.passed) = true := by
  rcases not_and_or.mp hskip with h | h
  · exact absurd hp h
  · rcases not_and_or.mp h with h | h
    · simp [not_not.mp h]
    · simpa using h

/-- Every invocation of a final check (priority ≥ 100) in the sequential
trace happened with every previously produced result passing. -/
theorem seqGo_final_check_sees_passing (o : OptimizedResume) (j : JobPosting)
    (s : ResumeSource) (ns : Bool) :
    ∀ (l : List FilterCls) (acc : List FilterResult) (n : String) (p : Int)
      (before : List FilterResult) (out : Except PyExc FilterResult),
      SeqStep.invoked n p before out ∈ (seqGo o j s ns l acc).2 →
      100 ≤ p → before.all (fun r => r.passed) = true := by
  intro l
  induction l with
  | nil => intro acc n p before out hmem; simp [seqGo] at hmem
  | cons fc rest ih =>
    intro acc n p before out hmem hp
    by_cases hskip : 100 ≤ fc.priority ∧ acc ≠ [] ∧ acc.all (fun r => r.passed) = false
    · rw [seqGo, if_pos hskip] at hmem
      simp only [List.mem_cons] at hmem
      rcases hmem with heq | hmem
      · cases heq
      · exact ih acc n p before out hmem hp
    · cases he : fc.evaluate ns o j s with
      | error e =>
        rw [seqGo, if_neg hskip] at hmem
        simp only [he, List.mem_singleton] at hmem
        injection hmem with h1 h2 h3 h4
        subst h2; subst h3
        exact notSkip_all_passing hp hskip
      | ok r =>
        by_cases hbrk : r.passed = false ∧ fc.priority < 100
        · rw [seqGo, if_neg hskip] at hmem
          simp only [he, if_pos hbrk, List.mem_singleton] at hmem
          injection hmem with h1 h2 h3 h4
          subst h2; subst h3
          exact notSkip_all_passing hp hskip
        · rw [seqGo, if_neg hskip] at hmem
          simp only [he, if_neg hbrk, List.mem_cons] at hmem
          rcases hmem with heq | hmem
          · injection heq with h1 h2 h3 h4
            subst h2; subst h3
            exact notSkip_all_passing hp hskip
          · exact ih (acc ++ [r]) n p before out hmem hp

/-- A failing result of a non-final evaluator (priority < 100) ends the
sequential pass: nothing follows its invocation in the trace. -/
theorem seqGo_break_is_last (o : OptimizedResume) (j : JobPosting)
    (s : ResumeSource) (ns : Bool) :
    ∀ (l : List FilterCls) (acc : List FilterResult) (l₁ : List SeqStep)
      (n : String) (p : Int) (before : List FilterResult) (r : FilterResult)
      (l₂ : List SeqStep),
      (seqGo o j s ns l acc).2 = l₁ ++ SeqStep.invoked n p before (.ok r) :: l₂ →
      r.passed = false → p < 100 → l₂ = [] := by
  intro l
  induction l with
  | nil =>
    intro acc l₁ n p before r l₂ heq _ _
    rw [seqGo] at heq
    exact absurd heq.symm (List.append_ne_nil_of_right_ne_nil l₁ (List.cons_ne_nil _ _))
  | cons fc rest ih =>
    intro acc l₁ n p before r l₂ heq hrp hp
    by_cases hskip : 100 ≤ fc.priority ∧ acc ≠ [] ∧ acc.all (fun r => r.passed) = false
    · rw [seqGo, if_pos hskip] at heq
      cases l₁ with
      | nil =>
        simp only [List.nil_append, List.cons.injEq] at heq
        cases heq.1
      | cons st l₁' =>
        simp only [List.cons_append, List.cons.injEq] at heq
        exact ih acc l₁' n p before r l₂ heq.2 hrp hp
    · cases he : fc.evaluate ns o j s with
      | error e =>
        rw [seqGo, if_neg hskip] at heq
        simp only [he] at heq
        cases l₁ with
        | nil =>
          simp only [List.nil_append, List.cons.injEq] at heq
          injection heq.1 with h1 h2 h3 h4
          cases h4
        | cons st l₁' =>
          simp only [List.cons_append, List.cons.injEq] at heq
          exact absurd heq.2.symm
            (List.append_ne_nil_of_right_ne_nil l₁' (List.cons_ne_nil _ _))
      | ok res =>
        by_cases hbrk : res.passed = false ∧ fc.priority < 100
        · rw [seqGo, if_neg hskip] at heq
          simp only [he, if_pos hbrk] at heq
          cases l₁ with
          | nil =>
            simp only [List.nil_append, List.cons.injEq] at heq
            exact heq.2.symm
          | cons st l₁' =>
            simp only [List.cons_append, List.cons.injEq] at heq
            exact absurd heq.2.symm
              (List.append_ne_nil_of_right_ne_nil l₁' (List.cons_ne_nil _ _))
        · rw [seqGo, if_neg hskip] at heq
          simp only [he, if_neg hbrk] at heq
          cases l₁ with
          | nil =>
            simp only [List.nil_append, List.cons.injEq] at heq
            injection heq.1 with h1 h2 h3 h4
            injection h4 with h5
            exact absurd ⟨h5 ▸ hrp, h2 ▸ hp⟩ hbrk
          | cons st l₁' =>
            simp only [List.cons_append, List.cons.injEq] at heq
            exact ih (acc ++ [res]) l₁' n p before r l₂ heq.2 hrp hp

/-- C2: sequential mode sorts the registry by ascending priority and walks
it in that order (the trace is an initial segment of the sorted registry);
a final check (priority ≥ 100) is only ever invoked when every result
produced earlier in the pass is passing; and a failing result of a
priority < 100 evaluator is the last trace entry — nothing runs after it. -/
theorem c2_sequential_priority_order_and_early_exit (fs : List FilterCls)
    (o : OptimizedResume) (j : JobPosting) (s : ResumeSource) (ns : Bool) :
    List.Sorted (fun a b : Int => a ≤ b) ((sortFilters fs).map (fun fc => fc.priority))
    ∧ (∃ rest, (sortFilters fs).map (fun fc => (fc.name, fc.priority)) =
        (runFiltersSeq fs o j s ns).2.map (fun st => (st.stepName, st.stepPriority)) ++ rest)
    ∧ (∀ n p before out,
        SeqStep.invoked n p before out ∈ (runFiltersSeq fs o j s ns).2 →
        100 ≤ p → before.all (fun r => r.passed) = true)
    ∧ (∀ l₁ n p before r l₂,
        (runFiltersSeq fs o j s ns).2 = l₁ ++ SeqStep.invoked n p before (.ok r) :: l₂ →
        r.passed = false → p < 100 → l₂ = []) := by
  refine ⟨?_, ?_, ?_, ?_⟩
  · exact (List.sorted_insertionSort _ fs).map _ (fun a b h => h)
  · exact seqGo_trace_follows_sorted o j s ns (sortFilters fs) []
  · exact fun n p before out hmem hp =>
      seqGo_final_check_sees_passing o j s ns (sortFilters fs) [] n p before out hmem hp
  · exact fun l₁ n p before r l₂ heq hrp hp =>
      seqGo_break_is_last o j s ns (sortFilters fs) [] l₁ n p before r l₂ heq hrp hp

/-- Witness for C2: with a passing priority-10 evaluator and a priority-100
final check the final check is invoked and saw only passing results; with a
failing priority-10 evaluator in front, its invocation is the last trace
entry. -/
theorem c2_witness :
    ((runFiltersSeq [finalCls, passCls] opt0 job0 source0 false).2 =
      [SeqStep.invoked "P" 10 [] (.ok passRes),
       SeqStep.invoked "FIN" 100 [passRes] (.ok finRes)])
    ∧ List.all [passRes] (fun r => r.passed) = true
    ∧ ((runFiltersSeq [finalCls, failCls] opt0 job0 source0 false).2 =
        [] ++ SeqStep.invoked "F" 10 [] (.ok failRes) :: [])
    ∧ ([] : List SeqStep) = [] := by
  refine ⟨rfl, ?_, rfl, ?_⟩
  · exact (c2_sequential_priority_order_and_early_exit [finalCls, passCls]
      opt0 job0 source0 false).2.2.1 "FIN" 100 [passRes] (.ok finRes)
      (by rw [show (runFiltersSeq [finalCls, passCls] opt0 job0 source0 false).2 =
          [SeqStep.invoked "P" 10 [] (.ok passRes),
           SeqStep.invoked "FIN" 100 [passRes] (.ok finRes)] from rfl]; simp)
      (by omega)
  · exact (c2_sequential_priority_order_and_early_exit [finalCls, failCls]
      opt0 job0 source0 false).2.2.2 [] "F" 10 [] failRes [] rfl rfl (by omega)

/-- A list of all-passing results contains no failure. -/
theorem countP_failures_zero {acc : List FilterResult}
    (h : acc.all (fun r => r.passed) = true) :
    acc.countP (fun r => !r.passed) = 0 := by
  rw [List.countP_eq_zero]
  intro r hr
  simp [List.all_eq_true.mp h r hr]

/-- Once the accumulated results contain a failure, a tail of final checks
(all of priority ≥ 100) is skipped wholesale and the results are returned
unchanged. -/
theorem seqGo_all_final_skips (o : OptimizedResume) (j : JobPosting)
    (s : ResumeSource) (ns : Bool) :
    ∀ (l : List FilterCls) (acc : List FilterResult),
      (∀ fc ∈ l, 100 ≤ fc.priority) → acc ≠ [] →
      acc.all (fun r => r.passed) = false →
      (seqGo o j s ns l acc).1 = .ok acc := by
  intro l
  induction l with
  | nil => intro acc _ _ _; rfl
  | cons fc rest ih =>
    intro acc hall hne hfail
    have hskip : 100 ≤ fc.priority ∧ acc ≠ [] ∧ acc.all (fun r => r.passed) = false :=
      ⟨hall fc (by simp), hne, hfail⟩
    simp only [seqGo, if_pos hskip]
    exact ih acc (fun fc' h => hall fc' (by simp [h])) hne hfail

/-- Starting a sequential pass from all-passing accumulated results over a
priority-sorted tail yields at most one failing result. -/
theorem seqGo_at_most_one_failure (o : OptimizedResume) (j : JobPosting)
    (s : ResumeSource) (ns : Bool) :
    ∀ (l : List FilterCls) (acc : List FilterResult),
      List.Sorted (fun a b : FilterCls => a.priority ≤ b.priority) l →
      acc.all (fun r => r.passed) = true →
      ∀ res, (seqGo o j s ns l acc).1 = .ok res →
      res.countP (fun r => !r.passed) ≤ 1 := by
  intro l
  induction l with
  | nil =>
    intro acc _ hacc res heq
    rw [seqGo] at heq
    simp only [Except.ok.injEq] at heq
    subst heq
    simp [countP_failures_zero hacc]
  | cons fc rest ih =>
    intro acc hsorted hacc res heq
    have hskip : ¬ (100 ≤ fc.priority ∧ acc ≠ [] ∧ acc.all (fun r => r.passed) = false) := by
      simp [hacc]
    rw [seqGo, if_neg hskip] at heq
    cases he : fc.evaluate ns o j s with
    | error e => rw [he] at heq; simp at heq
    | ok r =>
      by_cases hbrk : r.passed = false ∧ fc.priority < 100
      · simp only [he, if_pos hbrk, Except.ok.injEq] at heq
        subst heq
        rw [List.countP_append, countP_failures_zero hacc]
        simp [List.countP_cons, hbrk.1]
      · simp only [he, if_neg hbrk] at heq
        rcases Bool.eq_false_or_eq_true r.passed with hrp | hrp
        · exact ih (acc ++ [r]) (List.sorted_cons.mp hsorted).2
            (by simp [List.all_append, hacc, hrp]) res heq
        · have hrest : ∀ fc' ∈ rest, 100 ≤ fc'.priority := by
            have hp : 100 ≤ fc.priority := by
              rcases not_and_or.mp hbrk with h | h
              · exact absurd hrp h
              · omega
            intro fc' hf
            have := (List.sorted_cons.mp hsorted).1 fc' hf
            omega
          have hres1 := seqGo_all_final_skips o j s ns rest (acc ++ [r])
            hrest (by simp) (by simp [List.all_append, hrp])
          rw [hres1] at heq
          simp only [Except.ok.injEq] at heq
          subst heq
          rw [List.countP_append, countP_failures_zero hacc]
          simp [List.countP_cons, hrp]

/-- C9: a verdict the sequential mode returns contains at most one failing
result — a failure below priority 100 breaks the pass at once, and after a
failure of a final check every remaining (final) evaluator is skipped. -/
theorem c9_sequential_at_most_one_failure (fs : List FilterCls)
    (o : OptimizedResume) (j : JobPosting) (s : ResumeSource) (ns : Bool)
    (v : ValidationResult) (inv : List String)
    (h : run_filters fs o j s false ns = (.ok v, inv)) :
    v.results.countP (fun r => !r.passed) ≤ 1 := by
  have h1 := congrArg Prod.fst h
  simp only [run_filters, Bool.false_eq_true, if_false] at h1
  cases hseq : (runFiltersSeq fs o j s ns).1 with
  | error e => rw [hseq] at h1; simp [Except.map] at h1
  | ok res =>
    rw [hseq] at h1
    simp only [Except.map, Except.ok.injEq] at h1
    have hv : v.results = res := by rw [← h1]
    rw [hv]
    exact seqGo_at_most_one_failure o j s ns (sortFilters fs) []
      (List.sorted_insertionSort _ fs) rfl res hseq

/-- Witness for C9 on the early-exit run that truncates to one failing
result. -/
theorem c9_witness :
    run_filters [failCls, finalCls] opt0 job0 source0 false false =
      (.ok ⟨[failRes]⟩, ["F"])
    ∧ (⟨[failRes]⟩ : ValidationResult).results.countP (fun r => !r.passed) ≤ 1 :=
  ⟨rfl, c9_sequential_at_most_one_failure [failCls, finalCls] opt0 job0 source0
    false ⟨[failRes]⟩ ["F"] rfl⟩

/-- The record of one iteration carries the context that iteration handed to
the Rewrite Step. -/
theorem iterStep_record_ctx (env : LoopEnv) (source : ResumeSource)
    (job : JobPosting) (par ns : Bool) (i : Nat) (la : Option String)
    (val : Option ValidationResult) :
    (iterStep env source job par ns i la val).1.ctx =
      ⟨i, source.content, la, val⟩ := by
  rw [iterStep]
  split
  · rfl
  · split
    · rfl
    · rfl

/-- When an iteration completes normally, the stored raw content for the next
iteration is the Python-truthiness raw content of the candidate the Rewrite
Step produced, and the record's verdict is the iteration's verdict. -/
theorem iterStep_ok_spec (env : LoopEnv) (source : ResumeSource)
    (job : JobPosting) (par ns : Bool) (i : Nat) (la : Option String)
    (val : Option ValidationResult) (o2 : OptimizedResume)
    (v : ValidationResult) (la2 : Option String)
    (h : (iterStep env source job par ns i la val).2 = .ok (o2, v, la2)) :
    la2 = pyRawContent (iterStep env source job par ns i la val).1.optimized
    ∧ (iterStep env source job par ns i la val).1.verdict = some v := by
  rw [iterStep] at h ⊢
  split at h
  next =>
    simp only at h
    injection h with h'
    injection h' with h1 h'
    injection h' with h2 h3
    subst h2; subst h3
    exact ⟨rfl, rfl⟩
  next =>
    split at h
    next =>
      simp only at h
      injection h with h'
      injection h' with h1 h'
      injection h' with h2 h3
      subst h2; subst h3
      exact ⟨rfl, rfl⟩
    next =>
      simp only at h
      exact Except.noConfusion h

/-- An iteration whose rendered candidate has no extracted text synthesizes
the render-failure verdict, invokes no evaluator, and carries on normally. -/
theorem iterStep_render_failure (env : LoopEnv) (source : ResumeSource)
    (job : JobPosting) (par ns : Bool) (i : Nat) (la : Option String)
    (val : Option ValidationResult)
    (hpdf : (_render_and_extract env (env.optimize_resume source job
        ⟨i, source.content, la, val⟩ ns)).pdf_text = none) :
    iterStep env source job par ns i la val =
      (⟨⟨i, source.content, la, val⟩,
        env.optimize_resume source job ⟨i, source.content, la, val⟩ ns,
        _render_and_extract env (env.optimize_resume source job ⟨i, source.content, la, val⟩ ns),
        [], some ⟨[pdfRenderFailResult]⟩⟩,
       .ok (_render_and_extract env (env.optimize_resume source job ⟨i, source.content, la, val⟩ ns),
            ⟨[pdfRenderFailResult]⟩,
            pyRawContent (env.optimize_resume source job ⟨i, source.content, la, val⟩ ns))) := by
  rw [iterStep]
  simp only [hpdf]

/-- The loop performs at most `fuel` iterations. -/
theorem loopGo_records_le_fuel (env : LoopEnv) (source : ResumeSource)
    (job : JobPosting) (par ns : Bool) :
    ∀ (fuel i : Nat) (o : Option OptimizedResume) (v : Option ValidationResult)
      (la : Option String),
      (loopGo env source job par ns fuel i o v la).2.length ≤ fuel := by
  intro fuel
  induction fuel with
  | zero => intro i o v la; simp [loopGo]
  | succ f ih =>
    intro i o v la
    rw [loopGo]
    cases hstep : iterStep env source job par ns i la v with
    | mk rec out =>
      cases out with
      | error e => simp
      | ok triple =>
        obtain ⟨opt2, v2, la2⟩ := triple
        by_cases hv : v2.passed = true
        · simp [hv]
        · simp only [hv, if_false, Bool.false_eq_true, List.length_cons]
          exact Nat.succ_le_succ (ih (i + 1) (some opt2) (some v2) la2)

/-- With fuel remaining, the loop runs its next iteration: the record list
starts with the record of `iterStep` at the current state. -/
theorem loopGo_cons_of_fuel (env : LoopEnv) (source : ResumeSource)
    (job : JobPosting) (par ns : Bool) (f i : Nat) (o : Option OptimizedResume)
    (v : Option ValidationResult) (la : Option String) :
    ∃ rest, (loopGo env source job par ns (f + 1) i o v la).2 =
      (iterStep env source job par ns i la v).1 :: rest := by
  rw [loopGo]
  cases hstep : iterStep env source job par ns i la v with
  | mk rec out =>
    cases out with
    | error e => exact ⟨[], by simp⟩
    | ok triple =>
      obtain ⟨opt2, v2, la2⟩ := triple
      by_cases hv : v2.passed = true
      · exact ⟨[], by simp [hv]⟩
      · refine ⟨(loopGo env source job par ns f (i + 1) (some opt2) (some v2) la2).2, ?_⟩
        simp [hv]

/-- The first record of a loop run carries the context built from the state
the run was started in. -/
theorem loopGo_first_ctx (env : LoopEnv) (source : ResumeSource)
    (job : JobPosting) (par ns : Bool) (fuel i : Nat)
    (o : Option OptimizedResume) (v : Option ValidationResult)
    (la : Option String) (rec : IterRecord) (rest : List IterRecord)
    (h : (loopGo env source job par ns fuel i o v la).2 = rec :: rest) :
    rec.ctx = ⟨i, source.content, la, v⟩ := by
  cases fuel with
  | zero => rw [loopGo] at h; cases h
  | succ f =>
    obtain ⟨rest', hr⟩ := loopGo_cons_of_fuel env source job par ns f i o v la
    rw [hr] at h
    injection h with h1 _
    rw [← h1]
    exact iterStep_record_ctx env source job par ns i la v

/-- Chain invariant of the loop: a record following another in the same run
was built from the context whose iteration index is one higher, whose raw
previous content is the Python-truthiness raw content of the previous
record's candidate, and whose verdict is the previous record's verdict. -/
theorem loopGo_chain (env : LoopEnv) (source : ResumeSource) (job : JobPosting)
    (par ns : Bool) :
    ∀ (fuel i : Nat) (o : Option OptimizedResume) (v : Option ValidationResult)
      (la : Option String) (k : Nat) (rec rec' : IterRecord),
      (loopGo env source job par ns fuel i o v la).2.get? k = some rec →
      (loopGo env source job par ns fuel i o v la).2.get? (k + 1) = some rec' →
      rec'.ctx = ⟨i + (k + 1), source.content,
        pyRawContent rec.optimized, rec.verdict⟩ := by
  intro fuel
  induction fuel with
  | zero =>
    intro i o v la k rec rec' h1 _h2
    rw [loopGo] at h1
    simp at h1
  | succ f ih =>
    intro i o v la k rec rec' h1 h2
    rw [loopGo] at h1 h2
    cases hstep : iterStep env source job par ns i la v with
    | mk rec0 out =>
      rw [hstep] at h1 h2
      cases out with
      | error e =>
        simp only [List.get?_cons_succ] at h2
        simp at h2
      | ok triple =>
        obtain ⟨opt2, v2, la2⟩ := triple
        by_cases hv : v2.passed = true
        · simp only [hv, if_true] at h2
          simp only [List.get?_cons_succ] at h2
          simp at h2
        · simp only [hv, if_false, Bool.false_eq_true] at h1 h2
          cases k with
          | zero =>
            simp only [List.get?_cons_zero, Option.some.injEq] at h1
            simp only [List.get?_cons_succ] at h2
            subst h1
            cases hnext : (loopGo env source job par ns f (i + 1) (some opt2)
                (some v2) la2).2 with
            | nil => rw [hnext] at h2; simp at h2
            | cons recA restA =>
              rw [hnext] at h2
              simp only [List.get?_cons_zero, Option.some.injEq] at h2
              subst h2
              have hctx := loopGo_first_ctx env source job par ns f (i + 1)
                (some opt2) (some v2) la2 recA restA hnext
              have hspec := iterStep_ok_spec env source job par ns i la v opt2 v2 la2
                (by rw [hstep])
              rw [hstep] at hspec
              rw [hctx, hspec.1, ← hspec.2]
          | succ k' =>
            simp only [List.get?_cons_succ] at h1 h2
            have := ih (i + 1) (some opt2) (some v2) la2 k' rec rec' h1 h2
            rw [this]
            have harith : i + 1 + (k' + 1) = i + (k' + 1 + 1) := by omega
            rw [harith]

/-- C1: one run of `optimize_for_job` with `max_iterations = m ≥ 1` performs
at most `m` iterations — each iteration record corresponds to exactly one
Rewrite Step (`optimize_resume`) call and one render (`_render_and_extract`)
call; and when the first iteration's verdict passes, the run performs exactly
that one iteration: one Rewrite Step call and one render call. -/
theorem c1_budget_and_first_pass_stops (env : LoopEnv) (source : ResumeSource)
    (job_text : Option String) (m : Nat) (jobOpt : Option JobPosting)
    (par ns : Bool) (hm : 1 ≤ m) :
    (optimize_for_job env source job_text (some m) jobOpt par ns).records.length ≤ m
    ∧ (∀ (j : JobPosting) (rec : IterRecord) (o2 : OptimizedResume)
        (v : ValidationResult) (la2 : Option String),
        resolvedJob env jobOpt job_text = some j →
        iterStep env source j par ns 0 none none = (rec, .ok (o2, v, la2)) →
        v.passed = true →
        (optimize_for_job env source job_text (some m) jobOpt par ns).records = [rec]) := by
  obtain ⟨f, rfl⟩ : ∃ f, m = f + 1 := ⟨m - 1, by omega⟩
  constructor
  · cases jobOpt with
    | some j =>
      exact loopGo_records_le_fuel env source j par ns (f + 1) 0 none none none
    | none =>
      cases job_text with
      | none => simp [optimize_for_job]
      | some t =>
        exact loopGo_records_le_fuel env source (env.parse_job_posting t) par ns
          (f + 1) 0 none none none
  · intro j rec o2 v la2 hres hstep hv
    cases jobOpt with
    | some j0 =>
      simp only [resolvedJob, Option.some.injEq] at hres
      subst hres
      show (loopGo env source j0 par ns (f + 1) 0 none none none).2 = [rec]
      rw [loopGo, hstep]
      simp [hv]
    | none =>
      cases job_text with
      | none => simp [resolvedJob] at hres
      | some t =>
        simp only [resolvedJob, Option.map_some', Option.some.injEq] at hres
        subst hres
        show (loopGo env source (env.parse_job_posting t) par ns (f + 1) 0
          none none none).2 = [rec]
        rw [loopGo, hstep]
        simp [hv]

/-- Witness for C1: with a rewriter whose first candidate renders and passes
the single registered evaluator, a budget of 3 yields exactly one iteration
record. -/
theorem c1_witness :
    (optimize_for_job envPass source0 none (some 3) (some job0) false false).records.length ≤ 3
    ∧ (optimize_for_job envPass source0 none (some 3) (some job0) false false).records =
        [(iterStep envPass source0 job0 false false 0 none none).1] := by
  refine ⟨(c1_budget_and_first_pass_stops envPass source0 none 3 (some job0)
    false false (by omega)).1, ?_⟩
  exact (c1_budget_and_first_pass_stops envPass source0 none 3 (some job0)
    false false (by omega)).2 job0 (iterStep envPass source0 job0 false false 0 none none).1
    _ _ _ rfl rfl rfl

/-- C4: when an iteration's rendered candidate has no extracted text, that
iteration's record carries the synthetic verdict with the single failing
render-stage result ("PDFRender", score 0.0, threshold 1.0), no evaluator is
invoked on that iteration, and — when at least one more iteration of budget
remains — the loop proceeds to iteration `i + 1`. -/
theorem c4_render_failure_iteration (env : LoopEnv) (source : ResumeSource)
    (job : JobPosting) (par ns : Bool) (f i : Nat)
    (o : Option OptimizedResume) (val : Option ValidationResult)
    (la : Option String)
    (hpdf : (_render_and_extract env (env.optimize_resume source job
        ⟨i, source.content, la, val⟩ ns)).pdf_text = none) :
    ∃ rest, (loopGo env source job par ns (f + 1) i o val la).2 =
        (iterStep env source job par ns i la val).1 :: rest
      ∧ (iterStep env source job par ns i la val).1.verdict = some ⟨[pdfRenderFailResult]⟩
      ∧ (iterStep env source job par ns i la val).1.invoked = []
      ∧ pdfRenderFailResult.filter_name = "PDFRender"
      ∧ pdfRenderFailResult.passed = false
      ∧ pdfRenderFailResult.score = 0
      ∧ pdfRenderFailResult.threshold = 1
      ∧ (1 ≤ f → ∃ rec2 rest2, rest = rec2 :: rest2 ∧ rec2.ctx.iteration = i + 1) := by
  have hstep := iterStep_render_failure env source job par ns i la val hpdf
  have hv : (⟨[pdfRenderFailResult]⟩ : ValidationResult).passed = false := rfl
  obtain ⟨rest, hrest⟩ := loopGo_cons_of_fuel env source job par ns f i o val la
  refine ⟨rest, hrest, ?_, ?_, rfl, rfl, rfl, rfl, ?_⟩
  · rw [hstep]
  · rw [hstep]
  · intro hf
    obtain ⟨f', rfl⟩ : ∃ f', f = f' + 1 := ⟨f - 1, by omega⟩
    have hrecs : (loopGo env source job par ns (f' + 1 + 1) i o val la).2 =
        (iterStep env source job par ns i la val).1 ::
          (loopGo env source job par ns (f' + 1) (i + 1)
            (some (_render_and_extract env (env.optimize_resume source job
              ⟨i, source.content, la, val⟩ ns)))
            (some ⟨[pdfRenderFailResult]⟩)
            (pyRawContent (env.optimize_resume source job
              ⟨i, source.content, la, val⟩ ns))).2 := by
      rw [loopGo, hstep]
      simp [hv]
    rw [hrecs] at hrest
    injection hrest with _h1 hrest2
    obtain ⟨rest2, hr2⟩ := loopGo_cons_of_fuel env source job par ns f' (i + 1)
      (some (_render_and_extract env (env.optimize_resume source job
        ⟨i, source.content, la, val⟩ ns)))
      (some ⟨[pdfRenderFailResult]⟩)
      (pyRawContent (env.optimize_resume source job ⟨i, source.content, la, val⟩ ns))
    refine ⟨(iterStep env source job par ns (i + 1)
      (pyRawContent (env.optimize_resume source job ⟨i, source.content, la, val⟩ ns))
      (some ⟨[pdfRenderFailResult]⟩)).1, rest2, ?_, ?_⟩
    · rw [← hrest2]
      exact hr2
    · rw [iterStep_record_ctx]

/-- Witness for C4: a rewriter that emits a contentless candidate makes every
render fail; with 2 iterations of budget the first iteration carries the
synthetic render verdict, invokes no evaluator, and iteration 1 follows. -/
theorem c4_witness :
    (_render_and_extract envNoContent (envNoContent.optimize_resume source0 job0
        ⟨0, source0.content, none, none⟩ false)).pdf_text = none
    ∧ ∃ rest, (loopGo envNoContent source0 job0 false false (1 + 1) 0 none none none).2 =
        (iterStep envNoContent source0 job0 false false 0 none none).1 :: rest
      ∧ (iterStep envNoContent source0 job0 false false 0 none none).1.verdict =
          some ⟨[pdfRenderFailResult]⟩
      ∧ (iterStep envNoContent source0 job0 false false 0 none none).1.invoked = []
      ∧ pdfRenderFailResult.filter_name = "PDFRender"
      ∧ pdfRenderFailResult.passed = false
      ∧ pdfRenderFailResult.score = 0
      ∧ pdfRenderFailResult.threshold = 1
      ∧ (1 ≤ 1 → ∃ rec2 rest2, rest = rec2 :: rest2 ∧ rec2.ctx.iteration = 0 + 1) :=
  ⟨rfl, c4_render_failure_iteration envNoContent source0 job0 false false 1 0
    none none none rfl⟩

/-- C6 (amended): the context handed to the Rewrite Step on the first
iteration of a run has no previous content and no previous verdict and
iteration index 0; and each later iteration's context carries iteration
index one higher, the previous iteration's raw candidate content under
Python truthiness (markup when present and non-empty, otherwise the
serialized structured data when present, otherwise absent), and the
previous iteration's verdict. -/
theorem c6_iteration_context_chain (env : LoopEnv) (source : ResumeSource)
    (job_text : Option String) (mi : Option Nat) (jobOpt : Option JobPosting)
    (par ns : Bool) :
    (∀ rec rest,
        (optimize_for_job env source job_text mi jobOpt par ns).records = rec :: rest →
        rec.ctx = ⟨0, source.content, none, none⟩)
    ∧ (∀ k rec rec',
        (optimize_for_job env source job_text mi jobOpt par ns).records.get? k = some rec →
        (optimize_for_job env source job_text mi jobOpt par ns).records.get? (k + 1) = some rec' →
        rec'.ctx = ⟨k + 1, source.content, pyRawContent rec.optimized, rec.verdict⟩) := by
  cases jobOpt with
  | some j =>
    constructor
    · intro rec rest h
      exact loopGo_first_ctx env source j par ns _ 0 none none none rec rest h
    · intro k rec rec' h1 h2
      have h3 := loopGo_chain env source j par ns _ 0 none none none k rec rec' h1 h2
      simpa using h3
  | none =>
    cases job_text with
    | none =>
      constructor
      · intro rec rest h
        simp [optimize_for_job] at h
      · intro k rec rec' h1 _h2
        simp [optimize_for_job] at h1
    | some t =>
      constructor
      · intro rec rest h
        exact loopGo_first_ctx env source (env.parse_job_posting t) par ns _ 0
          none none none rec rest h
      · intro k rec rec' h1 h2
        have h3 := loopGo_chain env source (env.parse_job_posting t) par ns _ 0
          none none none k rec rec' h1 h2
        simpa using h3

/-- Counterexample to C6 as stated: with a rewriter that emits an empty (but
present) markup string and no structured data, the next iteration's context
does not carry the previous candidate's raw content in the sense of the spec
wording — the spec-worded raw content is the empty markup, yet the loop
stores an absent previous attempt, because line 167 of orchestration.py
tests the markup for Python truthiness, not for presence. -/
theorem c6_counterexample :
    ¬ (∀ k rec rec',
        (optimize_for_job envEmptyHtml source0 none (some 2) (some job0) false false).records.get? k = some rec →
        (optimize_for_job envEmptyHtml source0 none (some 2) (some job0) false false).records.get? (k + 1) = some rec' →
        rec'.ctx.last_attempt = specRawContent rec.optimized) := by
  intro h
  have h1 := h 0 _ _ rfl rfl
  have h2 : (none : Option String) = some "" := h1
  exact Option.noConfusion h2

/-- Witness for C6 (amended) on the empty-markup run: iteration 1's context
is rebuilt from iteration 0's record via the Python-truthiness raw content
and stored verdict. -/
theorem c6_witness :
    ∃ rec rec',
      (optimize_for_job envEmptyHtml source0 none (some 2) (some job0) false false).records.get? 0 = some rec
      ∧ (optimize_for_job envEmptyHtml source0 none (some 2) (some job0) false false).records.get? 1 = some rec'
      ∧ rec'.ctx = ⟨1, source0.content, pyRawContent rec.optimized, rec.verdict⟩ := by
  refine ⟨_, _, rfl, rfl, ?_⟩
  exact (c6_iteration_context_chain envEmptyHtml source0 none (some 2) (some job0)
    false false).2 0 _ _ rfl rfl

/-- C10: `optimize_for_job` called with neither a pre-parsed job nor job text
raises `ValueError` before any job parsing, Rewrite Step invocation, or
render call (no parse call, no iteration record); and with a pre-parsed job
supplied, no job parsing occurs whether or not job text is given. -/
theorem c10_missing_job_inputs (env : LoopEnv) (source : ResumeSource)
    (mi : Option Nat) (par ns : Bool) :
    optimize_for_job env source none mi none par ns =
      ⟨.error (.valueError "Either job_text or job must be provided"), 0, []⟩
    ∧ (∀ (job_text : Option String) (j : JobPosting),
        (optimize_for_job env source job_text mi (some j) par ns).parse_calls = 0) := by
  constructor
  · rfl
  · intro job_text j
    rfl
